import Mathlib

/-!
Shallow embedding of the syzgydb Python client library and its bulk
ingestion workflow, together with theorems settling the specification
claims about it.

Source files embedded:
* `src/python_client/syzgy/models.py`   — `Document`, `Document.to_dict`
* `src/python_client/syzgy/__init__.py` — `SyzgyClient._request`,
  `get_collection` / `get_collections` / `create_collection`,
  `Collection.__init__`, `Collection.insert_documents`, `Collection.search`
* `src/syzgydb_client.py`               — `SyzgyDBClient.__init__`,
  `insert_record`, `insert_records`, `processTweets`

JSON-serializable Python values are modelled by `PyVal`; Python floats are
modelled as rationals (the claims only inspect key presence and identity of
`None`, never float arithmetic).
-/

set_option autoImplicit false

/-- JSON-serializable Python value: `None`, bool, int, float, str, list, dict.
Dicts are association lists of string keys. -/
inductive PyVal : Type where
  | none : PyVal
  | bool (b : Bool) : PyVal
  | int (n : Int) : PyVal
  | float (q : Rat) : PyVal
  | str (s : String) : PyVal
  | list (xs : List PyVal) : PyVal
  | dict (fields : List (String × PyVal)) : PyVal

/-- Python `v is None` test. -/
def PyVal.isNone : PyVal → Bool
  | .none => true
  | _ => false

/-- Lift an optional Python argument into a `PyVal`: `None` when absent. -/
def pyOpt {α : Type} (f : α → PyVal) : Option α → PyVal
  | Option.none => PyVal.none
  | Option.some a => f a

/-- Serialize an optional float vector argument. -/
def pyVec : Option (List Rat) → PyVal :=
  pyOpt (fun v => PyVal.list (v.map PyVal.float))

/-- Serialize an optional metadata-dict argument. -/
def pyDictOpt : Option (List (String × PyVal)) → PyVal :=
  pyOpt PyVal.dict

/-! ### Entity model (`src/python_client/syzgy/models.py`) -/

/-- The `Document` dataclass: `id: int`, `vector: Optional[List[float]] = None`,
`text: Optional[str] = None`, `metadata: Optional[Dict] = None`. -/
structure Document : Type where
  id : Int
  vector : Option (List Rat)
  text : Option String
  metadata : Option (List (String × PyVal))

/-- Embeds `dataclasses.asdict(self)`: all four fields, in declaration order, with
unset optionals as Python `None`. -/
def Document.asdict (d : Document) : List (String × PyVal) :=
  [("id", PyVal.int d.id),
   ("vector", pyVec d.vector),
   ("text", pyOpt PyVal.str d.text),
   ("metadata", pyDictOpt d.metadata)]

/-- Embeds `Document.to_dict`: `{k: v for k, v in asdict(self).items() if v is not None}`. -/
def Document.to_dict (d : Document) : List (String × PyVal) :=
  d.asdict.filter (fun kv => !kv.2.isNone)

/-! ### Transport adapter and client facade (`src/python_client/syzgy/__init__.py`) -/

/-- An HTTP response as seen by the client: its status code, its raw body
text, and the result of parsing the body as JSON (`Option.none` when
`response.json()` would raise). -/
structure HttpResponse : Type where
  status_code : Nat
  text : String
  json : Option PyVal

/-- Modelled from the spec: the module `syzgy/exceptions.py` defining
`SyzgyException` is absent from the sources (only imported); §7 of the spec
defines the error taxonomy as `ServiceError{status_code, body}`, so the
exception is modelled as carrying the status code and the raw response body,
the two values supplied at the single raise site in `SyzgyClient._request`. -/
structure SyzgyException : Type where
  status_code : Nat
  body : String
deriving DecidableEq

/-- Outcome of a facade call: a value, a raised `SyzgyException`, a raised
`TypeError` (bad keyword expansion), or a raised JSON-decode error. -/
inductive PyOutcome (α : Type) : Type where
  | ok (v : α) : PyOutcome α
  | syzgyError (e : SyzgyException) : PyOutcome α
  | typeError : PyOutcome α
  | jsonError : PyOutcome α

/-- Embeds `SyzgyClient._request`: raises `SyzgyException` when
`response.status_code >= 400`, otherwise returns `response.json()`
(raising a JSON-decode error when the body is not JSON). The network send
is abstracted away: the function consumes the response it elicits. -/
def SyzgyClient.request (resp : HttpResponse) : PyOutcome PyVal :=
  if 400 ≤ resp.status_code then
    PyOutcome.syzgyError ⟨resp.status_code, resp.text⟩
  else
    match resp.json with
    | Option.some v => PyOutcome.ok v
    | Option.none => PyOutcome.jsonError

/-- The `Collection` object built by `Collection.__init__` (the client
reference is dropped; Python enforces no runtime types, so every field
holds a `PyVal`). -/
structure CollectionObj : Type where
  collection_name : PyVal
  document_count : PyVal
  dimension_count : PyVal
  quantization : PyVal
  distance_function : PyVal

/-- The keyword parameters of `Collection.__init__` after `client`. -/
def collectionParamNames : List String :=
  ["collection_name", "document_count", "dimension_count", "quantization",
   "distance_function"]

/-- Python keyword expansion `Collection(self, **kwargs)`: binding succeeds
iff the keys of `kwargs` are exactly the declared parameter names (no
unexpected key, no missing key); otherwise a `TypeError` is raised. -/
def collectionInit (kwargs : List (String × PyVal)) : PyOutcome CollectionObj :=
  if (kwargs.map Prod.fst).all (fun k => k ∈ collectionParamNames) ∧
     collectionParamNames.all (fun k => k ∈ kwargs.map Prod.fst) then
    PyOutcome.ok
      ⟨(kwargs.lookup "collection_name").getD PyVal.none,
       (kwargs.lookup "document_count").getD PyVal.none,
       (kwargs.lookup "dimension_count").getD PyVal.none,
       (kwargs.lookup "quantization").getD PyVal.none,
       (kwargs.lookup "distance_function").getD PyVal.none⟩
  else
    PyOutcome.typeError

/-- Embeds `SyzgyClient.get_collection`: `result = self._request(...)` then
`Collection(self, **result)`; `**result` also raises a `TypeError` when the
JSON body is not an object. -/
def SyzgyClient.get_collection (resp : HttpResponse) : PyOutcome CollectionObj :=
  match SyzgyClient.request resp with
  | PyOutcome.ok (PyVal.dict kwargs) => collectionInit kwargs
  | PyOutcome.ok _ => PyOutcome.typeError
  | PyOutcome.syzgyError e => PyOutcome.syzgyError e
  | PyOutcome.typeError => PyOutcome.typeError
  | PyOutcome.jsonError => PyOutcome.jsonError

/-- Embeds `SyzgyClient.create_collection`: posts the creation body, then builds
`Collection(self, **result)` exactly as `get_collection` does. -/
def SyzgyClient.create_collection (resp : HttpResponse) : PyOutcome CollectionObj :=
  SyzgyClient.get_collection resp

/-- Embeds `SyzgyClient.get_collections`:
`[Collection(self, **collection) for collection in result]`. -/
def SyzgyClient.get_collections (resp : HttpResponse) : PyOutcome (List CollectionObj) :=
  match SyzgyClient.request resp with
  | PyOutcome.ok (PyVal.list items) =>
      items.foldr
        (fun item acc =>
          match item, acc with
          | PyVal.dict kwargs, PyOutcome.ok cs =>
              match collectionInit kwargs with
              | PyOutcome.ok c => PyOutcome.ok (c :: cs)
              | PyOutcome.syzgyError e => PyOutcome.syzgyError e
              | PyOutcome.typeError => PyOutcome.typeError
              | PyOutcome.jsonError => PyOutcome.jsonError
          | PyVal.dict _, e => e
          | _, _ => PyOutcome.typeError)
        (PyOutcome.ok [])
  | PyOutcome.ok _ => PyOutcome.typeError
  | PyOutcome.syzgyError e => PyOutcome.syzgyError e
  | PyOutcome.typeError => PyOutcome.typeError
  | PyOutcome.jsonError => PyOutcome.jsonError

/-- The request body built by `Collection.search`: the dict of all eight
optional parameters, then `{k: v for k, v in data.items() if v is not None}`. -/
def searchBody (vector : Option (List Rat)) (text : Option String)
    (k : Option Int) (radius : Option Rat) (limit : Option Int)
    (offset : Option Int) (precision : Option String)
    (filter : Option String) : List (String × PyVal) :=
  ([("vector", pyVec vector),
    ("text", pyOpt PyVal.str text),
    ("k", pyOpt PyVal.int k),
    ("radius", pyOpt PyVal.float radius),
    ("limit", pyOpt PyVal.int limit),
    ("offset", pyOpt PyVal.int offset),
    ("precision", pyOpt PyVal.str precision),
    ("filter", pyOpt PyVal.str filter)]).filter (fun kv => !kv.2.isNone)

/-- The request body of `Collection.insert_documents`:
`data = [doc.to_dict() for doc in documents]`. -/
def insertDocumentsBody (documents : List Document) : List (List (String × PyVal)) :=
  documents.map Document.to_dict

/-! ### URL construction -/

/-- Python `s.rstrip(c)` for a single character: remove every trailing `c`. -/
def rstripChar (c : Char) (s : String) : String :=
  String.mk ((s.data.reverse.dropWhile (fun x => x == c)).reverse)

/-- Embeds `SyzgyClient.__init__`: `self.base_url = base_url.rstrip(chr(47))`. -/
def SyzgyClient.base_url (base : String) : String :=
  rstripChar '/' base

/-- The absolute URL built by `SyzgyClient._request`:
`url = f"{self.base_url}{endpoint}"`. -/
def SyzgyClient.requestUrl (base endpoint : String) : String :=
  SyzgyClient.base_url base ++ endpoint

/-- Embeds `SyzgyDBClient.__init__`: `self.server_address = server_address`
(no normalization at all). -/
def SyzgyDBClient.server_address (addr : String) : String :=
  addr

/-- The URL built by `SyzgyDBClient.create_collection`:
`f"{self.server_address}/api/v1/collections"`. -/
def SyzgyDBClient.collectionsUrl (addr : String) : String :=
  SyzgyDBClient.server_address addr ++ "/api/v1/collections"

/-! ### `SyzgyDBClient.insert_record` (`src/syzgydb_client.py`) -/

/-- Python `metadata or \x7b\x7d`: `None` and the empty dict are falsy, any
other dict is truthy and kept. -/
def pyOrEmptyDict : Option (List (String × PyVal)) → List (String × PyVal)
  | Option.none => []
  | Option.some d => if d.isEmpty then [] else d

/-- The request body built by `SyzgyDBClient.insert_record`: every key is
always present; unset `text` and `vector` are sent as `None`, unset
`metadata` as the empty dict. -/
def insert_record_body (record_id : Int) (text : Option String)
    (vector : Option (List Rat))
    (metadata : Option (List (String × PyVal))) : List (String × PyVal) :=
  [("id", PyVal.int record_id),
   ("text", pyOpt PyVal.str text),
   ("vector", pyVec vector),
   ("metadata", PyVal.dict (pyOrEmptyDict metadata))]

/-! ### Bulk ingestion workflow (`processTweets` in `src/syzgydb_client.py`) -/

/-- One row of the CSV source. `fields` are the parsed columns;
`lineSpan` is the number of physical file lines the row occupies (a quoted
field may contain newlines), the amount by which `csv_reader.line_num`
advances when the row is read. In a real CSV file every row spans at least
one line. -/
structure CsvRow : Type where
  fields : List String
  lineSpan : Nat
deriving DecidableEq

/-- The record dict built for one tweet:
`record = ("id": record_id, "text": tweet_text, "metadata": ("text": tweet_text))`
with `record_id = csv_reader.line_num` at the moment the row was read. -/
structure IngestRecord : Type where
  id : Nat
  text : String
  metadata : List (String × PyVal)

/-- Build the record for a row read when the reader has consumed `lineNum`
physical lines in total. -/
def tweetRecord (lineNum : Nat) (tweet_text : String) : IngestRecord :=
  ⟨lineNum, tweet_text, [("text", PyVal.str tweet_text)]⟩

/-- The response to one `insert_records` call: its HTTP status and whether
`response.json()` succeeds on its body. -/
structure InsertResponse : Type where
  status_code : Nat
  body_is_json : Bool

/-- Embeds `SyzgyDBClient.insert_records`: posts the batch, prints an error line when
`status_code != 200`, and returns `response.json()` — so the only way it can
abort the caller is a JSON-decode failure on the response body. -/
def insert_records_raises (resp : InsertResponse) : Bool :=
  !resp.body_is_json

/-- The streaming loop of `processTweets` over the rows remaining after the
skip. State: `lineNum` = physical lines consumed so far, `records` = pending
batch, `callIdx` = number of insert calls already made, `calls` = the insert
calls issued so far (accumulator). `resps k` is the response the k-th insert
call receives. Returns the full trace of insert-call payloads and `true` iff
the run finished without an exception (a short row raises `IndexError` at
`row[5]`; a non-JSON response body raises inside `insert_records`). -/
def ingestLoop (rows : List CsvRow) (lineNum batch_size : Nat)
    (records : List IngestRecord) (resps : Nat → InsertResponse)
    (callIdx : Nat) (calls : List (List IngestRecord)) :
    List (List IngestRecord) × Bool :=
  match rows with
  | [] =>
      -- after the loop: flush any remaining records
      if records.isEmpty then (calls, true)
      else (calls ++ [records], !insert_records_raises (resps callIdx))
  | row :: rest =>
      match row.fields[5]? with
      | Option.none => (calls, false)
      | Option.some tweet_text =>
          let lineNum1 := lineNum + row.lineSpan
          let records1 := records ++ [tweetRecord lineNum1 tweet_text]
          if records1.length == batch_size then
            if insert_records_raises (resps callIdx) then
              (calls ++ [records1], false)
            else
              ingestLoop rest lineNum1 batch_size [] resps (callIdx + 1)
                (calls ++ [records1])
          else
            ingestLoop rest lineNum1 batch_size records1 resps callIdx calls

/-- Embeds `processTweets`: fetch `document_count` from the collection info, skip
that many rows with `next(csv_reader, None)` (which advances `line_num` past
them), then run the batching loop with an empty pending batch. The source
hard-codes `batch_size = 1`; the embedding keeps it as the local variable it
is in the code. -/
def processTweets (rows : List CsvRow) (document_count batch_size : Nat)
    (resps : Nat → InsertResponse) : List (List IngestRecord) × Bool :=
  ingestLoop (rows.drop document_count)
    (((rows.take document_count).map CsvRow.lineSpan).sum)
    batch_size [] resps 0 []

/-- The documents derived from `rows` when the reader has already consumed
`lineNum` physical lines: the mathematical description of rows M..N-1's
documents against which the workflow trace is compared. -/
def docsFrom (rows : List CsvRow) (lineNum : Nat) : List IngestRecord :=
  match rows with
  | [] => []
  | row :: rest =>
      tweetRecord (lineNum + row.lineSpan) ((row.fields[5]?).getD "") ::
        docsFrom rest (lineNum + row.lineSpan)

/-- Greedy left-to-right grouping of a list into chunks of size `B` (the last
chunk may be shorter); describes the batch boundaries of the workflow. -/
def chunksOf {α : Type} (B : Nat) : List α → List (List α)
  | [] => []
  | x :: xs =>
      (x :: xs.take (B - 1)) :: chunksOf B (xs.drop (B - 1))
termination_by xs => xs.length
decreasing_by
  simp only [List.length_drop, List.length_cons]
  omega

/-! ### Helper lemmas -/

theorem chunksOf_ne_nil {α : Type} (B : Nat) (x : α) (xs : List α) :
    chunksOf B (x :: xs) ≠ [] := by
  rw [chunksOf]
  exact List.cons_ne_nil _ _

theorem getLast_cons_ne_nil {α : Type} (a : α) (l : List α) (h : l ≠ []) :
    (a :: l).getLast? = l.getLast? := by
  match l with
  | [] => exact absurd rfl h
  | b :: t => rw [List.getLast?_cons_cons]

theorem chunksOf_flatten {α : Type} (B : Nat) (xs : List α) :
    (chunksOf B xs).flatten = xs := by
  induction xs using chunksOf.induct B with
  | case1 => rw [chunksOf]; rfl
  | case2 x xs ih =>
      rw [chunksOf]
      simp only [List.flatten_cons, List.cons_append, ih]
      rw [List.take_append_drop]

theorem chunksOf_eq_take_drop {α : Type} (B : Nat) (hB : 1 ≤ B) (xs : List α)
    (hxs : xs ≠ []) :
    chunksOf B xs = xs.take B :: chunksOf B (xs.drop B) := by
  match xs with
  | [] => exact absurd rfl hxs
  | x :: t =>
      obtain ⟨B1, rfl⟩ : ∃ B1, B = B1 + 1 := ⟨B - 1, by omega⟩
      rw [chunksOf]
      simp [List.take_succ_cons, List.drop_succ_cons]

theorem chunksOf_length {α : Type} (B : Nat) (hB : 1 ≤ B) (xs : List α) :
    (chunksOf B xs).length = (xs.length + B - 1) / B := by
  induction xs using chunksOf.induct B with
  | case1 =>
      rw [chunksOf]
      simp only [List.length_nil, Nat.zero_add]
      rw [Nat.div_eq_of_lt (by omega)]
  | case2 x xs ih =>
      rw [chunksOf]
      simp only [List.length_cons, List.length_drop] at ih ⊢
      rw [ih]
      rcases Nat.lt_or_ge (xs.length + 1) B with h | h
      · rw [Nat.div_eq_of_lt (by omega)]
        symm
        apply Nat.div_eq_of_lt_le (by omega) (by omega)
      · have h2 : xs.length + 1 + B - 1 = xs.length - (B - 1) + B - 1 + B := by
          omega
        rw [h2, Nat.add_div_right _ (by omega)]

theorem chunksOf_dropLast_length {α : Type} (B : Nat) (hB : 1 ≤ B)
    (xs : List α) :
    ∀ c ∈ (chunksOf B xs).dropLast, c.length = B := by
  induction xs using chunksOf.induct B with
  | case1 =>
      rw [chunksOf]
      intro c hc
      simp at hc
  | case2 x xs ih =>
      rw [chunksOf]
      rcases hd : xs.drop (B - 1) with _ | ⟨y, ys⟩
      · rw [chunksOf]
        intro c hc
        simp at hc
      · rw [hd] at ih
        intro c hc
        rw [List.dropLast_cons_of_ne_nil (chunksOf_ne_nil B y ys)] at hc
        rcases List.mem_cons.mp hc with rfl | hc
        · have hlen : B - 1 ≤ xs.length := by
            have h1 := congrArg List.length hd
            simp only [List.length_drop, List.length_cons] at h1
            omega
          simp only [List.length_cons, List.length_take]
          omega
        · exact ih c hc

theorem chunksOf_getLast_length {α : Type} (B : Nat) (hB : 1 ≤ B)
    (xs : List α) (hxs : xs ≠ []) :
    (chunksOf B xs).getLast?.map List.length =
      Option.some (if xs.length % B = 0 then B else xs.length % B) := by
  induction xs using chunksOf.induct B with
  | case1 => exact absurd rfl hxs
  | case2 x xs ih =>
      rw [chunksOf]
      rcases hd : xs.drop (B - 1) with _ | ⟨y, ys⟩
      · rw [chunksOf]
        have hlen : xs.length ≤ B - 1 := by
          have h1 := congrArg List.length hd
          simp only [List.length_drop, List.length_nil] at h1
          omega
        simp only [List.getLast?_singleton, Option.map_some', List.length_cons,
          List.length_take, Option.some.injEq]
        have hmin : min (B - 1) xs.length = xs.length := by omega
        rw [hmin]
        rcases Nat.lt_or_ge (xs.length + 1) B with h | h
        · rw [if_neg (by rw [Nat.mod_eq_of_lt (by omega)]; omega),
            Nat.mod_eq_of_lt (by omega)]
        · have hEQ : xs.length + 1 = B := by omega
          rw [hEQ, Nat.mod_self, if_pos rfl]
      · rw [hd] at ih
        have hrest := ih (List.cons_ne_nil y ys)
        rw [getLast_cons_ne_nil _ _ (chunksOf_ne_nil B y ys), hrest]
        have h1 := congrArg List.length hd
        simp only [List.length_drop] at h1
        have hlen : B - 1 ≤ xs.length := by
          rw [List.length_cons] at h1
          omega
        rw [← h1, List.length_cons]
        have hmod : (xs.length - (B - 1)) % B = (xs.length + 1) % B := by
          have h2 : xs.length - (B - 1) = xs.length + 1 - B := by omega
          rw [h2, ← Nat.mod_eq_sub_mod (by omega)]
        rw [hmod]

theorem docsFrom_length (rows : List CsvRow) (lineNum : Nat) :
    (docsFrom rows lineNum).length = rows.length := by
  induction rows generalizing lineNum with
  | nil => rfl
  | cons row rest ih => simp [docsFrom, ih]

theorem docsFrom_id_gt (rows : List CsvRow) (lineNum : Nat)
    (h : ∀ r ∈ rows, 1 ≤ r.lineSpan) :
    ∀ rec ∈ docsFrom rows lineNum, lineNum < rec.id := by
  induction rows generalizing lineNum with
  | nil => intro rec hrec; simp [docsFrom] at hrec
  | cons row rest ih =>
      intro rec hrec
      rw [docsFrom] at hrec
      rcases List.mem_cons.mp hrec with rfl | hrec
      · have := h row (List.mem_cons_self row rest)
        simp only [tweetRecord]
        omega
      · have h2 := ih (lineNum + row.lineSpan)
          (fun r hr => h r (List.mem_cons_of_mem row hr)) rec hrec
        have := h row (List.mem_cons_self row rest)
        omega

theorem docsFrom_ids_sorted (rows : List CsvRow) (lineNum : Nat)
    (h : ∀ r ∈ rows, 1 ≤ r.lineSpan) :
    ((docsFrom rows lineNum).map IngestRecord.id).Pairwise (· < ·) := by
  induction rows generalizing lineNum with
  | nil => simp [docsFrom]
  | cons row rest ih =>
      rw [docsFrom]
      simp only [List.map_cons, List.pairwise_cons]
      constructor
      · intro a ha
        simp only [List.mem_map] at ha
        obtain ⟨rec, hrec, rfl⟩ := ha
        exact docsFrom_id_gt rest (lineNum + row.lineSpan)
          (fun r hr => h r (List.mem_cons_of_mem row hr)) rec hrec
      · exact ih (lineNum + row.lineSpan)
          (fun r hr => h r (List.mem_cons_of_mem row hr))


theorem ingestLoop_ok (rows : List CsvRow) (B : Nat)
    (resps : Nat → InsertResponse)
    (hrows : ∀ r ∈ rows, 6 ≤ r.fields.length)
    (hresp : ∀ k, (resps k).body_is_json = true) :
    ∀ (lineNum : Nat) (records : List IngestRecord) (idx : Nat)
      (calls : List (List IngestRecord)),
    (ingestLoop rows lineNum B records resps idx calls).2 = true ∧
    (ingestLoop rows lineNum B records resps idx calls).1.flatten =
      calls.flatten ++ records ++ docsFrom rows lineNum := by
  induction rows with
  | nil =>
      intro lineNum records idx calls
      simp only [ingestLoop, insert_records_raises, hresp idx, docsFrom,
        Bool.not_true]
      by_cases h : records.isEmpty
      · rw [List.isEmpty_iff] at h
        subst h
        simp
      · simp [h]
  | cons row rest ih =>
      intro lineNum records idx calls
      have hlen : 5 < row.fields.length := by
        have := hrows row (List.mem_cons_self row rest)
        omega
      obtain ⟨t, ht⟩ : ∃ t, row.fields[5]? = Option.some t :=
        ⟨row.fields[5], List.getElem?_eq_getElem hlen⟩
      have ih2 := ih (fun r hr => hrows r (List.mem_cons_of_mem row hr))
      simp only [ingestLoop, ht, insert_records_raises, hresp idx,
        Bool.not_true, docsFrom, Option.getD_some]
      cases h : (records ++ [tweetRecord (lineNum + row.lineSpan) t]).length == B with
      | false =>
          simp only [h, Bool.false_eq_true, if_false]
          obtain ⟨ha, hb⟩ := ih2 (lineNum + row.lineSpan)
            (records ++ [tweetRecord (lineNum + row.lineSpan) t]) idx calls
          refine ⟨ha, ?_⟩
          rw [hb]
          simp [List.append_assoc]
      | true =>
          simp only [h, if_true, Bool.false_eq_true, if_false]
          obtain ⟨ha, hb⟩ := ih2 (lineNum + row.lineSpan) [] (idx + 1)
            (calls ++ [records ++ [tweetRecord (lineNum + row.lineSpan) t]])
          refine ⟨ha, ?_⟩
          rw [hb]
          simp [List.append_assoc]

theorem ingestLoop_calls (rows : List CsvRow) (B : Nat)
    (resps : Nat → InsertResponse)
    (hrows : ∀ r ∈ rows, 6 ≤ r.fields.length)
    (hresp : ∀ k, (resps k).body_is_json = true) (hB : 1 ≤ B) :
    ∀ (lineNum : Nat) (records : List IngestRecord) (idx : Nat)
      (calls : List (List IngestRecord)), records.length < B →
    (ingestLoop rows lineNum B records resps idx calls).1 =
      calls ++ chunksOf B (records ++ docsFrom rows lineNum) := by
  induction rows with
  | nil =>
      intro lineNum records idx calls hrec
      simp only [ingestLoop, insert_records_raises, hresp idx, docsFrom,
        Bool.not_true, List.append_nil]
      by_cases h : records.isEmpty
      · rw [List.isEmpty_iff] at h
        subst h
        rw [chunksOf]
        simp
      · match records with
        | [] => simp at h
        | r :: rs =>
            rw [chunksOf]
            have h1 : rs.take (B - 1) = rs := by
              apply List.take_of_length_le
              simp only [List.length_cons] at hrec
              omega
            have h2 : rs.drop (B - 1) = [] := by
              apply List.drop_eq_nil_of_le
              simp only [List.length_cons] at hrec
              omega
            rw [h1, h2, chunksOf]
            simp
  | cons row rest ih =>
      intro lineNum records idx calls hrec
      have hlen : 5 < row.fields.length := by
        have := hrows row (List.mem_cons_self row rest)
        omega
      obtain ⟨t, ht⟩ : ∃ t, row.fields[5]? = Option.some t :=
        ⟨row.fields[5], List.getElem?_eq_getElem hlen⟩
      have ih2 := ih (fun r hr => hrows r (List.mem_cons_of_mem row hr))
      simp only [ingestLoop, ht, insert_records_raises, hresp idx,
        Bool.not_true, docsFrom, Option.getD_some]
      cases h : (records ++ [tweetRecord (lineNum + row.lineSpan) t]).length == B with
      | false =>
          simp only [h, Bool.false_eq_true, if_false]
          have hne : (records ++ [tweetRecord (lineNum + row.lineSpan) t]).length ≠ B := by
            intro hcon
            rw [hcon] at h
            simp at h
          have hlt : (records ++ [tweetRecord (lineNum + row.lineSpan) t]).length < B := by
            simp only [List.length_append, List.length_singleton] at hne ⊢
            omega
          rw [ih2 (lineNum + row.lineSpan)
            (records ++ [tweetRecord (lineNum + row.lineSpan) t]) idx calls hlt]
          rw [List.append_assoc records _ _]
          rfl
      | true =>
          simp only [h, if_true, Bool.false_eq_true, if_false]
          have heq : (records ++ [tweetRecord (lineNum + row.lineSpan) t]).length = B := by
            simpa using h
          rw [ih2 (lineNum + row.lineSpan) [] (idx + 1)
            (calls ++ [records ++ [tweetRecord (lineNum + row.lineSpan) t]])
            (by simp only [List.length_nil]; omega)]
          have hsplit : records ++
              tweetRecord (lineNum + row.lineSpan) t :: docsFrom rest (lineNum + row.lineSpan) =
              (records ++ [tweetRecord (lineNum + row.lineSpan) t]) ++
                docsFrom rest (lineNum + row.lineSpan) := by
            simp
          have hchunks : chunksOf B (records ++
              tweetRecord (lineNum + row.lineSpan) t :: docsFrom rest (lineNum + row.lineSpan)) =
              (records ++ [tweetRecord (lineNum + row.lineSpan) t]) ::
                chunksOf B (docsFrom rest (lineNum + row.lineSpan)) := by
            rw [hsplit, chunksOf_eq_take_drop B hB _ (by simp),
              List.take_left' heq, List.drop_left' heq]
          rw [hchunks]
          simp

theorem ingestLoop_sent_le (rows : List CsvRow) (B : Nat)
    (resps : Nat → InsertResponse) :
    ∀ (lineNum : Nat) (records : List IngestRecord) (idx : Nat)
      (calls : List (List IngestRecord)),
    ∃ rem, calls.flatten ++ records ++ docsFrom rows lineNum =
      (ingestLoop rows lineNum B records resps idx calls).1.flatten ++ rem := by
  induction rows with
  | nil =>
      intro lineNum records idx calls
      simp only [ingestLoop, docsFrom, List.append_nil]
      by_cases h : records.isEmpty
      · rw [List.isEmpty_iff] at h
        subst h
        exact ⟨[], by simp⟩
      · refine ⟨[], ?_⟩
        simp [h]
  | cons row rest ih =>
      intro lineNum records idx calls
      cases ht : row.fields[5]? with
      | none =>
          simp only [ingestLoop, ht]
          exact ⟨records ++ docsFrom (row :: rest) lineNum, by
            simp [List.append_assoc]⟩
      | some t =>
          simp only [ingestLoop, ht, docsFrom, Option.getD_some]
          cases hb : (records ++ [tweetRecord (lineNum + row.lineSpan) t]).length == B with
          | false =>
              simp only [hb, Bool.false_eq_true, if_false]
              obtain ⟨rem, hrem⟩ := ih (lineNum + row.lineSpan)
                (records ++ [tweetRecord (lineNum + row.lineSpan) t]) idx calls
              refine ⟨rem, ?_⟩
              rw [← hrem]
              simp [List.append_assoc]
          | true =>
              simp only [hb, if_true]
              cases hr : insert_records_raises (resps idx) with
              | true =>
                  simp only [if_true]
                  refine ⟨docsFrom rest (lineNum + row.lineSpan), ?_⟩
                  simp [List.append_assoc]
              | false =>
                  simp only [Bool.false_eq_true, if_false]
                  obtain ⟨rem, hrem⟩ := ih (lineNum + row.lineSpan) [] (idx + 1)
                    (calls ++ [records ++ [tweetRecord (lineNum + row.lineSpan) t]])
                  refine ⟨rem, ?_⟩
                  rw [← hrem]
                  simp [List.append_assoc]

theorem ingestLoop_status_blind (rows : List CsvRow) (B : Nat)
    (resps resps2 : Nat → InsertResponse)
    (h : ∀ k, (resps k).body_is_json = (resps2 k).body_is_json) :
    ∀ (lineNum : Nat) (records : List IngestRecord) (idx : Nat)
      (calls : List (List IngestRecord)),
    ingestLoop rows lineNum B records resps idx calls =
      ingestLoop rows lineNum B records resps2 idx calls := by
  induction rows with
  | nil =>
      intro lineNum records idx calls
      simp only [ingestLoop, insert_records_raises, h idx]
  | cons row rest ih =>
      intro lineNum records idx calls
      cases ht : row.fields[5]? with
      | none => simp only [ingestLoop, ht]
      | some t =>
          simp only [ingestLoop, ht, insert_records_raises, h idx]
          cases hb : (records ++ [tweetRecord (lineNum + row.lineSpan) t]).length == B with
          | false =>
              simp only [hb, Bool.false_eq_true, if_false]
              exact ih _ _ _ _
          | true =>
              simp only [hb, if_true]
              by_cases hc : (resps2 idx).body_is_json = true
              · simp only [hc, Bool.not_true, Bool.false_eq_true, if_false]
                exact ih _ _ _ _
              · have hc2 : (resps2 idx).body_is_json = false := by
                  revert hc
                  cases (resps2 idx).body_is_json <;> simp
                simp only [hc2, Bool.not_false, if_true]

/-! ### Claim theorems -/

/-- C1: for a CSV source of N rows and a collection whose server-reported
document_count is M with M ≤ N at workflow start, `processTweets` sends to
insert exactly the documents derived from rows M..N-1 of the source, in
source order (the concatenation of its insert calls is the derived-document
list of the rows after the skip), completes the run, and never re-derives
rows 0..M-1: its behavior depends on the skipped rows only through the line
count the reader consumes while skipping them, never through their fields. -/
theorem resume_correctness (rows : List CsvRow) (M B : Nat)
    (resps : Nat → InsertResponse)
    (hM : M ≤ rows.length)
    (hrows : ∀ r ∈ rows.drop M, 6 ≤ r.fields.length)
    (hresp : ∀ k, (resps k).body_is_json = true) :
    (processTweets rows M B resps).1.flatten =
      docsFrom (rows.drop M) (((rows.take M).map CsvRow.lineSpan).sum) ∧
    (processTweets rows M B resps).2 = true ∧
    ∀ rows2 : List CsvRow, rows2.drop M = rows.drop M →
      (rows2.take M).map CsvRow.lineSpan = (rows.take M).map CsvRow.lineSpan →
      processTweets rows2 M B resps = processTweets rows M B resps := by
  obtain ⟨h2, h1⟩ := ingestLoop_ok (rows.drop M) B resps hrows hresp
    (((rows.take M).map CsvRow.lineSpan).sum) [] 0 []
  refine ⟨?_, ?_, ?_⟩
  · rw [processTweets, h1]
    simp
  · rw [processTweets]
    exact h2
  · intro rows2 hdrop htake
    rw [processTweets, processTweets, hdrop, htake]

/-- C1 witness: a concrete 3-row source with document_count 1 and batch
size 1; the workflow sends exactly the documents of rows 1 and 2. -/
theorem resume_correctness_witness :
    (processTweets
      [⟨["a0", "a1", "a2", "a3", "a4", "tweet zero"], 1⟩,
       ⟨["b0", "b1", "b2", "b3", "b4", "tweet one"], 1⟩,
       ⟨["c0", "c1", "c2", "c3", "c4", "tweet two"], 1⟩]
      1 1 (fun _ => ⟨200, true⟩)).1.flatten =
      docsFrom
        [⟨["b0", "b1", "b2", "b3", "b4", "tweet one"], 1⟩,
         ⟨["c0", "c1", "c2", "c3", "c4", "tweet two"], 1⟩] 1 :=
  (resume_correctness
    [⟨["a0", "a1", "a2", "a3", "a4", "tweet zero"], 1⟩,
     ⟨["b0", "b1", "b2", "b3", "b4", "tweet one"], 1⟩,
     ⟨["c0", "c1", "c2", "c3", "c4", "tweet two"], 1⟩]
    1 1 (fun _ => ⟨200, true⟩)
    (by decide)
    (by decide)
    (fun _ => rfl)).1

/-- C2: for batch size B ≥ 1 and N rows remaining after the skip offset,
`processTweets` issues exactly ⌈N/B⌉ insert calls, every call except the
last carries exactly B documents, and the last call carries N mod B
documents (or B when N is a nonzero multiple of B; no call when N = 0). -/
theorem batch_flushing (rows : List CsvRow) (M B : Nat)
    (resps : Nat → InsertResponse)
    (hB : 1 ≤ B)
    (hrows : ∀ r ∈ rows.drop M, 6 ≤ r.fields.length)
    (hresp : ∀ k, (resps k).body_is_json = true) :
    (processTweets rows M B resps).1.length =
      ((rows.drop M).length + B - 1) / B ∧
    (∀ c ∈ (processTweets rows M B resps).1.dropLast, c.length = B) ∧
    (processTweets rows M B resps).1.getLast?.map List.length =
      (if (rows.drop M).length = 0 then Option.none
       else Option.some (if (rows.drop M).length % B = 0 then B
         else (rows.drop M).length % B)) := by
  have hcalls := ingestLoop_calls (rows.drop M) B resps hrows hresp hB
    (((rows.take M).map CsvRow.lineSpan).sum) [] 0 []
    (by simp only [List.length_nil]; omega)
  simp only [List.nil_append] at hcalls
  rw [processTweets, hcalls]
  have hdlen := docsFrom_length (rows.drop M)
    (((rows.take M).map CsvRow.lineSpan).sum)
  refine ⟨?_, ?_, ?_⟩
  · rw [chunksOf_length B hB, hdlen]
  · exact chunksOf_dropLast_length B hB _
  · by_cases hN : (rows.drop M).length = 0
    · rw [if_pos hN]
      have hnil : docsFrom (rows.drop M)
          (((rows.take M).map CsvRow.lineSpan).sum) = [] := by
        rw [← List.length_eq_zero]
        rw [hdlen]
        exact hN
      rw [hnil, chunksOf]
      rfl
    · rw [if_neg hN]
      have hne : docsFrom (rows.drop M)
          (((rows.take M).map CsvRow.lineSpan).sum) ≠ [] := by
        intro hcon
        have := congrArg List.length hcon
        rw [hdlen] at this
        exact hN this
      rw [chunksOf_getLast_length B hB _ hne, hdlen]

/-- C2 witness: 5 remaining rows with batch size 2 give 3 insert calls of
sizes 2, 2, 1. -/
theorem batch_flushing_witness :
    (processTweets
      [⟨["a", "a", "a", "a", "a", "t1"], 1⟩,
       ⟨["a", "a", "a", "a", "a", "t2"], 1⟩,
       ⟨["a", "a", "a", "a", "a", "t3"], 1⟩,
       ⟨["a", "a", "a", "a", "a", "t4"], 1⟩,
       ⟨["a", "a", "a", "a", "a", "t5"], 1⟩]
      0 2 (fun _ => ⟨200, true⟩)).1.length = 3 ∧
    (processTweets
      [⟨["a", "a", "a", "a", "a", "t1"], 1⟩,
       ⟨["a", "a", "a", "a", "a", "t2"], 1⟩,
       ⟨["a", "a", "a", "a", "a", "t3"], 1⟩,
       ⟨["a", "a", "a", "a", "a", "t4"], 1⟩,
       ⟨["a", "a", "a", "a", "a", "t5"], 1⟩]
      0 2 (fun _ => ⟨200, true⟩)).1.getLast?.map List.length =
      Option.some 1 := by
  have h := batch_flushing
    [⟨["a", "a", "a", "a", "a", "t1"], 1⟩,
     ⟨["a", "a", "a", "a", "a", "t2"], 1⟩,
     ⟨["a", "a", "a", "a", "a", "t3"], 1⟩,
     ⟨["a", "a", "a", "a", "a", "t4"], 1⟩,
     ⟨["a", "a", "a", "a", "a", "t5"], 1⟩]
    0 2 (fun _ => ⟨200, true⟩) (by decide) (by decide) (fun _ => rfl)
  exact ⟨h.1, h.2.2⟩

/-- C9: within a single run, the ids assigned to ingested documents (the
reader's line number when each row is read) are strictly increasing across
the concatenation of all insert calls the run issues, hence pairwise
distinct; every CSV row occupies at least one physical line. -/
theorem ingest_ids_strictly_increasing (rows : List CsvRow) (M B : Nat)
    (resps : Nat → InsertResponse)
    (hspan : ∀ r ∈ rows, 1 ≤ r.lineSpan) :
    (((processTweets rows M B resps).1.flatten.map IngestRecord.id).Pairwise
      (· < ·)) ∧
    (((processTweets rows M B resps).1.flatten.map IngestRecord.id).Pairwise
      (· ≠ ·)) := by
  obtain ⟨rem, hrem⟩ := ingestLoop_sent_le (rows.drop M) B resps
    (((rows.take M).map CsvRow.lineSpan).sum) [] 0 []
  simp only [List.flatten_nil, List.nil_append] at hrem
  have hall : ((docsFrom (rows.drop M)
      (((rows.take M).map CsvRow.lineSpan).sum)).map IngestRecord.id).Pairwise
      (· < ·) :=
    docsFrom_ids_sorted (rows.drop M) _
      (fun r hr => hspan r (List.mem_of_mem_drop hr))
  rw [hrem] at hall
  rw [List.map_append] at hall
  have hlt : (((processTweets rows M B resps).1.flatten.map
      IngestRecord.id).Pairwise (· < ·)) := by
    rw [processTweets]
    exact ((List.pairwise_append).mp hall).1
  exact ⟨hlt, hlt.imp Nat.ne_of_lt⟩

/-- C9 witness: a concrete run whose second row spans three physical lines;
the sent ids are strictly increasing and pairwise distinct. -/
theorem ingest_ids_strictly_increasing_witness :
    ((processTweets
      [⟨["a", "a", "a", "a", "a", "t1"], 1⟩,
       ⟨["a", "a", "a", "a", "a", "t2"], 3⟩,
       ⟨["a", "a", "a", "a", "a", "t3"], 1⟩]
      0 2 (fun _ => ⟨200, true⟩)).1.flatten.map IngestRecord.id).Pairwise
      (· < ·) :=
  (ingest_ids_strictly_increasing
    [⟨["a", "a", "a", "a", "a", "t1"], 1⟩,
     ⟨["a", "a", "a", "a", "a", "t2"], 3⟩,
     ⟨["a", "a", "a", "a", "a", "t3"], 1⟩]
    0 2 (fun _ => ⟨200, true⟩) (by decide)).1

/-- A two-row source used to exercise the failure behavior of the workflow. -/
def exRowsC3 : List CsvRow :=
  [⟨["a0", "a1", "a2", "a3", "a4", "first tweet"], 1⟩,
   ⟨["b0", "b1", "b2", "b3", "b4", "second tweet"], 1⟩]

/-- Responses where the first insert call fails with HTTP 500 (its body
still parses as JSON, the usual shape of an error reply) and later calls
succeed. -/
def exRespsC3 : Nat → InsertResponse :=
  fun k => if k = 0 then ⟨500, true⟩ else ⟨200, true⟩

/-- C3 counterexample: the first insert call of this concrete run returns a
non-success response (HTTP 500), yet `processTweets` goes on to read the
second row, build its batch and issue a second insert call, finishing the
run normally — it does not halt, contradicting the claim. -/
theorem insert_failure_does_not_halt :
    (exRespsC3 0).status_code ≠ 200 ∧
    (processTweets exRowsC3 0 1 exRespsC3).1 =
      [[tweetRecord 1 "first tweet"], [tweetRecord 2 "second tweet"]] ∧
    (processTweets exRowsC3 0 1 exRespsC3).2 = true := by
  refine ⟨by decide, rfl, rfl⟩

/-- C3 (amended): `insert_records` prints a non-success status and returns
the parsed body, so `processTweets` is entirely blind to response status
codes: two response sequences whose bodies are equally JSON-parsable
produce identical traces and outcomes, and only a response body that fails
to parse as JSON aborts the run. -/
theorem insert_status_blindness (rows : List CsvRow) (M B : Nat)
    (resps resps2 : Nat → InsertResponse)
    (h : ∀ k, (resps k).body_is_json = (resps2 k).body_is_json) :
    processTweets rows M B resps = processTweets rows M B resps2 := by
  rw [processTweets, processTweets]
  exact ingestLoop_status_blind (rows.drop M) B resps resps2 h _ _ _ _

/-- C3 amended-claim witness: the run with a failing first response equals
the run where every response succeeds. -/
theorem insert_status_blindness_witness :
    processTweets exRowsC3 0 1 exRespsC3 =
      processTweets exRowsC3 0 1 (fun _ => ⟨200, true⟩) :=
  insert_status_blindness exRowsC3 0 1 exRespsC3 (fun _ => ⟨200, true⟩)
    (fun k => by
      by_cases hk : k = 0 <;> simp [exRespsC3, hk])

/-- C4: whenever the HTTP response status is ≥ 400, `_request` raises the
service error carrying the response status code and its raw body, no JSON
value is returned, and each facade call built on it propagates the same
error; in particular `get_collection` on a 404 response raises the error
with status_code 404. -/
theorem service_error_propagation (resp : HttpResponse)
    (h : 400 ≤ resp.status_code) :
    SyzgyClient.request resp =
      PyOutcome.syzgyError ⟨resp.status_code, resp.text⟩ ∧
    SyzgyClient.get_collection resp =
      PyOutcome.syzgyError ⟨resp.status_code, resp.text⟩ ∧
    SyzgyClient.create_collection resp =
      PyOutcome.syzgyError ⟨resp.status_code, resp.text⟩ ∧
    SyzgyClient.get_collections resp =
      PyOutcome.syzgyError ⟨resp.status_code, resp.text⟩ := by
  have h1 : SyzgyClient.request resp =
      PyOutcome.syzgyError ⟨resp.status_code, resp.text⟩ := by
    rw [SyzgyClient.request, if_pos h]
  refine ⟨h1, ?_, ?_, ?_⟩
  · rw [SyzgyClient.get_collection, h1]
  · rw [SyzgyClient.create_collection, SyzgyClient.get_collection, h1]
  · rw [SyzgyClient.get_collections, h1]

/-- C4 witness: a 404 response to `get_collection` yields the service error
carrying status_code 404 and the raw body. -/
theorem service_error_propagation_witness :
    400 ≤ (404 : Nat) ∧
    SyzgyClient.get_collection ⟨404, "collection not found", Option.none⟩ =
      PyOutcome.syzgyError ⟨404, "collection not found"⟩ :=
  ⟨by decide,
   (service_error_propagation ⟨404, "collection not found", Option.none⟩
     (by decide)).2.1⟩

/-- C5: for every Document, the insert-payload dict always contains the key
id (mapped to the document's id), contains each of vector/text/metadata
exactly when that field was set (each independently), and carries no
None-valued key. -/
theorem document_to_dict_keys (d : Document) :
    "id" ∈ d.to_dict.map Prod.fst ∧
    d.to_dict.lookup "id" = Option.some (PyVal.int d.id) ∧
    ("vector" ∈ d.to_dict.map Prod.fst ↔ d.vector.isSome = true) ∧
    ("text" ∈ d.to_dict.map Prod.fst ↔ d.text.isSome = true) ∧
    ("metadata" ∈ d.to_dict.map Prod.fst ↔ d.metadata.isSome = true) ∧
    (∀ kv ∈ d.to_dict, kv.2 ≠ PyVal.none) := by
  obtain ⟨i, v, t, m⟩ := d
  cases v <;> cases t <;> cases m <;>
    simp [Document.to_dict, Document.asdict, pyOpt, pyVec, pyDictOpt,
      PyVal.isNone, List.lookup]

/-- C6: the keys of the `Collection.search` request body are exactly the
optional parameters the caller supplied: each of the eight appears iff it
was supplied, every key is one of the eight, and no None value is sent. -/
theorem search_body_keys (vector : Option (List Rat)) (text : Option String)
    (k : Option Int) (radius : Option Rat) (limit : Option Int)
    (offset : Option Int) (precision : Option String)
    (filter : Option String) :
    ("vector" ∈ (searchBody vector text k radius limit offset precision
      filter).map Prod.fst ↔ vector.isSome = true) ∧
    ("text" ∈ (searchBody vector text k radius limit offset precision
      filter).map Prod.fst ↔ text.isSome = true) ∧
    ("k" ∈ (searchBody vector text k radius limit offset precision
      filter).map Prod.fst ↔ k.isSome = true) ∧
    ("radius" ∈ (searchBody vector text k radius limit offset precision
      filter).map Prod.fst ↔ radius.isSome = true) ∧
    ("limit" ∈ (searchBody vector text k radius limit offset precision
      filter).map Prod.fst ↔ limit.isSome = true) ∧
    ("offset" ∈ (searchBody vector text k radius limit offset precision
      filter).map Prod.fst ↔ offset.isSome = true) ∧
    ("precision" ∈ (searchBody vector text k radius limit offset precision
      filter).map Prod.fst ↔ precision.isSome = true) ∧
    ("filter" ∈ (searchBody vector text k radius limit offset precision
      filter).map Prod.fst ↔ filter.isSome = true) ∧
    (∀ key ∈ (searchBody vector text k radius limit offset precision
      filter).map Prod.fst,
      key ∈ ["vector", "text", "k", "radius", "limit", "offset",
        "precision", "filter"]) ∧
    (∀ kv ∈ searchBody vector text k radius limit offset precision filter,
      kv.2 ≠ PyVal.none) := by
  refine ⟨?_, ?_, ?_, ?_, ?_, ?_, ?_, ?_, ?_, ?_⟩
  · cases vector <;> simp [searchBody, pyOpt, pyVec, PyVal.isNone]
  · cases text <;> simp [searchBody, pyOpt, pyVec, PyVal.isNone]
  · cases k <;> simp [searchBody, pyOpt, pyVec, PyVal.isNone]
  · cases radius <;> simp [searchBody, pyOpt, pyVec, PyVal.isNone]
  · cases limit <;> simp [searchBody, pyOpt, pyVec, PyVal.isNone]
  · cases offset <;> simp [searchBody, pyOpt, pyVec, PyVal.isNone]
  · cases precision <;> simp [searchBody, pyOpt, pyVec, PyVal.isNone]
  · cases filter <;> simp [searchBody, pyOpt, pyVec, PyVal.isNone]
  · intro key hkey
    have hsub : (searchBody vector text k radius limit offset precision
        filter).map Prod.fst ⊆
        ([("vector", pyVec vector),
          ("text", pyOpt PyVal.str text),
          ("k", pyOpt PyVal.int k),
          ("radius", pyOpt PyVal.float radius),
          ("limit", pyOpt PyVal.int limit),
          ("offset", pyOpt PyVal.int offset),
          ("precision", pyOpt PyVal.str precision),
          ("filter", pyOpt PyVal.str filter)]).map Prod.fst :=
      ((List.filter_sublist _).map Prod.fst).subset
    have := hsub hkey
    simpa using this
  · intro kv hkv
    have hp := List.of_mem_filter hkv
    intro hcon
    rw [hcon] at hp
    simp [PyVal.isNone] at hp

/-- C7 counterexample: `SyzgyDBClient` performs no normalization, so for the
base URL with a trailing slash the request URL differs from the one the
claim predicts (the stripped base concatenated with the path), and the two
base URLs differing only in a trailing slash produce different request
URLs. -/
theorem url_trailing_slash_counterexample :
    SyzgyDBClient.collectionsUrl "http://localhost:8080/" ≠
      SyzgyDBClient.collectionsUrl "http://localhost:8080" ∧
    SyzgyDBClient.collectionsUrl "http://localhost:8080/" ≠
      rstripChar '/' "http://localhost:8080/" ++ "/api/v1/collections" := by
  constructor <;> decide

/-- C7 (amended): `SyzgyClient` (python_client) strips every trailing slash
from the base URL once, at construction, and concatenates it with the
endpoint path, so two of its base URLs differing only in a trailing slash
yield identical request URLs; `SyzgyDBClient` (syzgydb_client.py) performs
no normalization and concatenates the raw server address with the path. -/
theorem url_construction (base endpoint : String) :
    SyzgyClient.requestUrl base endpoint = rstripChar '/' base ++ endpoint ∧
    SyzgyClient.requestUrl (base ++ "/") endpoint =
      SyzgyClient.requestUrl base endpoint ∧
    SyzgyDBClient.collectionsUrl base = base ++ "/api/v1/collections" := by
  refine ⟨rfl, ?_, rfl⟩
  rw [SyzgyClient.requestUrl, SyzgyClient.requestUrl]
  have hb : SyzgyClient.base_url (base ++ "/") = SyzgyClient.base_url base := by
    rw [SyzgyClient.base_url, SyzgyClient.base_url, rstripChar, rstripChar,
      String.data_append]
    have hslash : ("/" : String).data = ['/'] := rfl
    rw [hslash, List.reverse_append, List.reverse_cons, List.reverse_nil,
      List.nil_append, List.singleton_append, List.dropWhile_cons]
    simp
  rw [hb]

/-- C8: `SyzgyDBClient.insert_record` always sends all four keys id, text,
vector, metadata: unset text and vector are sent as None (null), unset
metadata as the empty dict, unlike `Document.to_dict`, which drops unset
fields. -/
theorem insert_record_body_shape (record_id : Int) (text : Option String)
    (vector : Option (List Rat))
    (metadata : Option (List (String × PyVal))) :
    (insert_record_body record_id text vector metadata).map Prod.fst =
      ["id", "text", "vector", "metadata"] ∧
    (insert_record_body record_id text vector metadata).lookup "text" =
      Option.some (pyOpt PyVal.str text) ∧
    (insert_record_body record_id text vector metadata).lookup "vector" =
      Option.some (pyVec vector) ∧
    (insert_record_body record_id text vector metadata).lookup "metadata" =
      Option.some (PyVal.dict (pyOrEmptyDict metadata)) ∧
    insert_record_body record_id Option.none Option.none Option.none =
      [("id", PyVal.int record_id), ("text", PyVal.none),
       ("vector", PyVal.none), ("metadata", PyVal.dict [])] ∧
    Document.to_dict ⟨record_id, Option.none, Option.none, Option.none⟩ =
      [("id", PyVal.int record_id)] := by
  refine ⟨rfl, ?_, ?_, ?_, rfl, rfl⟩ <;>
    simp [insert_record_body, List.lookup]

theorem collectionInit_typeError (kwargs : List (String × PyVal))
    (h : ¬(∀ key : String, key ∈ kwargs.map Prod.fst ↔
      key ∈ collectionParamNames)) :
    collectionInit kwargs = PyOutcome.typeError := by
  rw [collectionInit, if_neg]
  rintro ⟨h1, h2⟩
  apply h
  rw [List.all_eq_true] at h1 h2
  intro key
  constructor
  · intro hk
    have := h1 key hk
    exact of_decide_eq_true this
  · intro hk
    have := h2 key hk
    exact of_decide_eq_true this

/-- C10: `get_collection`, `get_collections`, and `create_collection`
keyword-expand the successful JSON object into `Collection.__init__`, which
requires exactly the keys collection_name, document_count, dimension_count,
quantization, distance_function; when the key set of a successful (status
< 400) object response differs from that set in any way — such as naming
the collection "name" instead of "collection_name", or any extra or missing
key — the call raises a TypeError, not a ServiceError and not a Collection
value. -/
theorem collection_kwargs_type_error (resp : HttpResponse)
    (kwargs : List (String × PyVal))
    (hstatus : resp.status_code < 400)
    (hjson : resp.json = Option.some (PyVal.dict kwargs))
    (hmismatch : ¬(∀ key : String, key ∈ kwargs.map Prod.fst ↔
      key ∈ collectionParamNames)) :
    SyzgyClient.get_collection resp = PyOutcome.typeError ∧
    SyzgyClient.create_collection resp = PyOutcome.typeError ∧
    (∀ resp2 : HttpResponse, resp2.status_code < 400 →
      resp2.json = Option.some (PyVal.list [PyVal.dict kwargs]) →
      SyzgyClient.get_collections resp2 = PyOutcome.typeError) := by
  have hreq : SyzgyClient.request resp = PyOutcome.ok (PyVal.dict kwargs) := by
    rw [SyzgyClient.request, if_neg (by omega), hjson]
  have hget : SyzgyClient.get_collection resp = PyOutcome.typeError := by
    rw [SyzgyClient.get_collection, hreq]
    exact collectionInit_typeError kwargs hmismatch
  refine ⟨hget, ?_, ?_⟩
  · rw [SyzgyClient.create_collection]
    exact hget
  · intro resp2 hstatus2 hjson2
    have hreq2 : SyzgyClient.request resp2 =
        PyOutcome.ok (PyVal.list [PyVal.dict kwargs]) := by
      rw [SyzgyClient.request, if_neg (by omega), hjson2]
    rw [SyzgyClient.get_collections, hreq2]
    simp only [List.foldr_cons, List.foldr_nil,
      collectionInit_typeError kwargs hmismatch]

/-- C10 witness: the exact successful response mocked in the repository's
own test (which names the collection under "name") makes `get_collection`
raise a TypeError. -/
theorem collection_kwargs_type_error_witness :
    SyzgyClient.get_collection
      ⟨201, "",
       Option.some (PyVal.dict
         [("name", PyVal.str "test_collection"),
          ("document_count", PyVal.int 0),
          ("dimension_count", PyVal.int 128),
          ("quantization", PyVal.int 8),
          ("distance_function", PyVal.str "cosine")])⟩ =
      PyOutcome.typeError :=
  (collection_kwargs_type_error
    ⟨201, "",
     Option.some (PyVal.dict
       [("name", PyVal.str "test_collection"),
        ("document_count", PyVal.int 0),
        ("dimension_count", PyVal.int 128),
        ("quantization", PyVal.int 8),
        ("distance_function", PyVal.str "cosine")])⟩
    [("name", PyVal.str "test_collection"),
     ("document_count", PyVal.int 0),
     ("dimension_count", PyVal.int 128),
     ("quantization", PyVal.int 8),
     ("distance_function", PyVal.str "cosine")]
    (by decide) rfl
    (fun hall =>
      (by decide : ¬("name" : String) ∈ collectionParamNames)
        ((hall "name").mp (by decide)))).1
